import Mathlib

/-!
Verification of the beatrix automation runtime against its source.

The definitions below are shallow embeddings of the TypeScript sources:
  * `Beatrix.Ollama`        — src/server/ollama.ts (tool loop and message conversion)
  * `Beatrix.Scheduler`     — src/server/workflow/scheduler-step.ts
  * `Beatrix.HomeAssistant` — LiveHomeAssistantApi.callService (modelled from the
                              spec; only its unit tests are among the sources)
  * `Beatrix.Evals`         — src/server/evals/call-service.ts (graders, runScenario)
  * `Beatrix.Config`        — loadConfig/saveConfig from src/server/api.ts

Definitions come first, then the theorems.
-/

set_option maxHeartbeats 1000000

namespace Beatrix

/-- A single-quote character (ASCII 39), used to spell the error strings of the
source without raw apostrophes in string literals. -/
def sq : String := String.singleton (Char.ofNat 39)

/-- Substring test matching the JavaScript `String.prototype.includes`. -/
def strIncludes (hay needle : String) : Bool :=
  hay.toList.tails.any (fun t => needle.toList.isPrefixOf t)

/-- The canonical Anthropic `ContentBlock` union used throughout the runtime. -/
inductive ContentBlock where
  | text (text : String)
  | tool_use (id : String) (name : String) (input : String)
  | tool_result (tool_use_id : String) (content : String)
deriving DecidableEq

/-- The `content` field of a `MessageParam`: a plain string or content blocks. -/
inductive AnthropicContent where
  | str (s : String)
  | blocks (blocks : List ContentBlock)
deriving DecidableEq

/-- The canonical `MessageParam` shape. -/
structure AnthropicMessage where
  role : String
  content : AnthropicContent
deriving DecidableEq

namespace Ollama

/-- Constant `MAX_ITERATIONS` (src/server/ollama.ts, line 20). -/
def MAX_ITERATIONS : Nat := 10

/-- Constant `TOOL_EXECUTION_TIMEOUT` in milliseconds (src/server/ollama.ts, line 23). -/
def TOOL_EXECUTION_TIMEOUT : Nat := 60 * 1000

/-- Constant `OLLAMA_API_TIMEOUT` of OllamaLargeLanguageProvider, in milliseconds. -/
def OLLAMA_API_TIMEOUT : Nat := 5 * 60 * 1000

/-- One entry of `response.message.tool_calls`; `args` keeps the JSON arguments
value opaque as its serialized text. -/
structure ToolCall where
  name : String
  args : String
deriving DecidableEq

/-- An Ollama-format chat `Message`; `tool_calls := none` models the field being
absent. -/
structure Message where
  role : String
  content : String
  tool_calls : Option (List ToolCall) := none
deriving DecidableEq

/-- Result of one `withTimeout(this.ollama.chat(...))` call: either a
`TimeoutError` or the assistant message of the response (the Ollama chat API
always answers with the assistant role). -/
inductive ProviderResult where
  | timeout
  | reply (content : String) (tool_calls : Option (List ToolCall))
deriving DecidableEq

/-- Outcome of `withTimeout(client.callTool(...))` for one tool call. `ok`
carries `JSON.stringify(toolResp.content)`; `errored` carries the message text
of the thrown error. -/
inductive ToolOutcome where
  | ok (content : String)
  | timedOut
  | errored (message : String)
deriving DecidableEq

/-- The user message pushed and yielded for a non-blank prompt. -/
def userMessage (prompt : String) : Message := ⟨"user", prompt, none⟩

/-- The synthetic assistant message pushed and yielded when the Ollama API call
times out. -/
def timeoutApology : Message :=
  ⟨"assistant",
    "I apologize, but the AI service took too long to respond. Let" ++ sq ++
      "s continue with what we have so far.", none⟩

/-- The assistant message pushed and yielded for a provider reply. -/
def assistantReply (content : String) (tool_calls : Option (List ToolCall)) : Message :=
  ⟨"assistant", content, tool_calls⟩

/-- The `tool` message pushed when `toolClientMap` has no client for the
requested tool name. -/
def toolNotFoundMessage (call : ToolCall) : Message :=
  ⟨"tool", "System error: Tool " ++ sq ++ call.name ++ sq ++ " not found.", none⟩

/-- The `tool` message pushed when the tool call hits `TOOL_EXECUTION_TIMEOUT`. -/
def toolTimeoutMessage (call : ToolCall) : Message :=
  ⟨"tool",
    "Tool " ++ sq ++ call.name ++ sq ++ " execution timed out after " ++
      toString TOOL_EXECUTION_TIMEOUT ++ "ms", none⟩

/-- The `tool` message pushed when the tool handler throws a non-timeout error. -/
def toolErrorMessage (call : ToolCall) (errText : String) : Message :=
  ⟨"tool", "Error executing tool " ++ sq ++ call.name ++ sq ++ ": " ++ errText, none⟩

/-- The single `tool` message pushed and yielded for one tool call, following
the `if (!client) ... try ... catch` structure of the loop body. `registered`
models membership in `toolClientMap`; `outcome` the result of the call. -/
def toolResponse (registered : String → Bool) (outcome : ToolCall → ToolOutcome)
    (call : ToolCall) : Message :=
  if registered call.name then
    match outcome call with
    | .ok content => ⟨"tool", content, none⟩
    | .timedOut => toolTimeoutMessage call
    | .errored msg => toolErrorMessage call msg
  else toolNotFoundMessage call

/-- Messages yielded by the `while (iterationCount < MAX_ITERATIONS)` loop of
`_executePromptWithTools`, where `remaining` is `MAX_ITERATIONS - iterationCount`
and `i` numbers the provider requests from zero. On timeout the loop yields the
apology and continues; on a reply it yields the assistant message, stops if
there are no tool calls, and otherwise yields one `tool` message per call
before the next iteration. -/
def loopEmitted (provider : Nat → ProviderResult) (registered : String → Bool)
    (outcome : ToolCall → ToolOutcome) : Nat → Nat → List Message
  | 0, _ => []
  | remaining + 1, i =>
    match provider i with
    | .timeout =>
        timeoutApology :: loopEmitted provider registered outcome remaining (i + 1)
    | .reply content tool_calls =>
        match tool_calls with
        | some (c :: cs) =>
            assistantReply content (some (c :: cs)) ::
              ((c :: cs).map (toolResponse registered outcome) ++
                loopEmitted provider registered outcome remaining (i + 1))
        | _ => [assistantReply content tool_calls]

/-- Number of `ollama.chat` requests issued by the loop. -/
def loopRequests (provider : Nat → ProviderResult) : Nat → Nat → Nat
  | 0, _ => 0
  | remaining + 1, i =>
    match provider i with
    | .timeout => 1 + loopRequests provider remaining (i + 1)
    | .reply _ tool_calls =>
        match tool_calls with
        | some (_ :: _) => 1 + loopRequests provider remaining (i + 1)
        | _ => 1

/-- The `prompt.trim()` falsiness test of the source: the trimmed string is
empty iff every character of the prompt is whitespace. -/
def promptIsBlank (prompt : String) : Bool :=
  prompt.toList.all (fun c => c.isWhitespace)

/-- All messages yielded by `_executePromptWithTools` in Ollama format: the
prompt is pushed and yielded as a user message only when `prompt.trim()` is
truthy, then the iteration loop runs. (`previousMessages` are converted into
the request buffer but never yielded, so they do not appear here.) -/
def executePromptWithTools (provider : Nat → ProviderResult)
    (registered : String → Bool) (outcome : ToolCall → ToolOutcome)
    (prompt : String) : List Message :=
  (if promptIsBlank prompt then [] else [userMessage prompt]) ++
    loopEmitted provider registered outcome MAX_ITERATIONS 0

/-- Function `convertOllamaMessageToAnthropic` (src/server/ollama.ts, lines 27–86).
`nowMs` stands for the value of `Date.now()` during this conversion. The
`JSON.parse` applied to tool content is kept opaque: the raw string stands for
the parsed value. -/
def convertOllamaMessageToAnthropic (nowMs : Nat) (msg : Message) : AnthropicMessage :=
  if msg.role = "tool" then
    ⟨"user", .blocks [.tool_result ("toolu_" ++ toString nowMs) msg.content]⟩
  else
    match msg.role, msg.tool_calls with
    | "assistant", some calls =>
        ⟨"assistant", .blocks
          ((if msg.content ≠ "" then [ContentBlock.text msg.content] else []) ++
            calls.map (fun c =>
              ContentBlock.tool_use ("toolu_" ++ c.name ++ "_" ++ toString nowMs)
                c.name c.args))⟩
    | _, _ => ⟨msg.role, .str msg.content⟩

/-- A provider that answers every request with a final assistant message. -/
def doneProvider : Nat → ProviderResult := fun _ => .reply "All done." none

/-- A provider whose first two requests time out, after which it recovers. -/
def timeoutTwiceProvider : Nat → ProviderResult
  | 0 => .timeout
  | 1 => .timeout
  | _ => .reply "Recovered." none

/-- A provider requesting one tool call named `test`, then finishing. -/
def pairingProvider : Nat → ProviderResult
  | 0 => .reply "" (some [⟨"test", "a"⟩])
  | _ => .reply "Done" none

/-- A provider requesting two tool calls, then finishing. -/
def twoToolsProvider : Nat → ProviderResult
  | 0 => .reply "Calling tools" (some [⟨"get-entities", "a"⟩, ⟨"call-service", "b"⟩])
  | _ => .reply "Done" none

/-- A registry that knows every tool name. -/
def allRegistered : String → Bool := fun _ => true

/-- A tool transport where every call succeeds with content `"42"`. -/
def okOutcome : ToolCall → ToolOutcome := fun _ => .ok "42"

/-- A tool transport where `get-entities` times out and other calls succeed. -/
def firstTimesOutOutcome : ToolCall → ToolOutcome := fun c =>
  if c.name == "get-entities" then .timedOut else .ok "null"

end Ollama

namespace Scheduler

/-- The columns of a `signals` row that `rescheduleAutomations` queries. -/
structure SignalRow where
  automationHash : String
  isDead : Bool
deriving DecidableEq

/-- An `automationLogs` row as inserted by `runSchedulerForAutomation`
(`createdAt` is omitted: it is wall-clock time). -/
structure AutomationLogRow where
  type : String
  automationHash : Option String
  messageLog : String
deriving DecidableEq

/-- Record `Automation` from src/shared/types.ts. -/
structure Automation where
  hash : String
  contents : String
  fileName : String
deriving DecidableEq

/-- The database state the scheduler step touches, plus a trace of the
scheduling-LLM-loop invocations (`llm.executePromptWithTools` runs). -/
structure DbState where
  signals : List SignalRow
  automationLogs : List AutomationLogRow
  llmInvocations : List String
deriving DecidableEq

/-- The query selecting the first signals row with the given automationHash
and with isDead != true (`executeTakeFirst`). -/
def firstAliveSignal (signals : List SignalRow) (hash : String) : Option SignalRow :=
  signals.find? (fun s => s.automationHash == hash && !s.isDead)

/-- Function `runSchedulerForAutomation`: drains the scheduling LLM loop (whose tools may
rewrite the signals table, abstracted by `toolEffect`), then inserts exactly one
`determine-signal` log row for the automation hash. `msgsFor` abstracts
`JSON.stringify(msgs)` of the drained transcript. -/
def runSchedulerForAutomation (toolEffect : String → List SignalRow → List SignalRow)
    (msgsFor : String → String) (db : DbState) (a : Automation) : DbState :=
  { signals := toolEffect a.hash db.signals
    automationLogs := db.automationLogs ++ [⟨"determine-signal", some a.hash, msgsFor a.hash⟩]
    llmInvocations := db.llmInvocations ++ [a.hash] }

/-- One iteration of the `for` loop in `rescheduleAutomations`: skip when the
automation already has an alive signal, otherwise run the scheduler for it. -/
def rescheduleStep (toolEffect : String → List SignalRow → List SignalRow)
    (msgsFor : String → String) (db : DbState) (a : Automation) : DbState :=
  match firstAliveSignal db.signals a.hash with
  | some _ => db
  | none => runSchedulerForAutomation toolEffect msgsFor db a

/-- Function `rescheduleAutomations` (src/server/workflow/scheduler-step.ts, lines 14–39). -/
def rescheduleAutomations (toolEffect : String → List SignalRow → List SignalRow)
    (msgsFor : String → String) (db : DbState) : List Automation → DbState
  | [] => db
  | a :: rest =>
      rescheduleAutomations toolEffect msgsFor (rescheduleStep toolEffect msgsFor db a) rest

end Scheduler

namespace HomeAssistant

/-- The `target.entity_id` of a service call: a single id or an array of ids. -/
inductive EntityTarget where
  | one (id : String)
  | many (ids : List String)
deriving DecidableEq

/-- The entity ids of a target in order. -/
def EntityTarget.toList : EntityTarget → List String
  | .one id => [id]
  | .many ids => ids

/-- The fields of `CallServiceOptions` that test-mode validation inspects. -/
structure CallServiceOptions where
  domain : String
  service : String
  target : EntityTarget
deriving DecidableEq

/-- How one `callService` invocation resolves: fulfilled with the hub reply
(or `null`), or rejected with an error message. -/
inductive ServiceOutcome where
  | ok (response : Option String)
  | failed (message : String)
deriving DecidableEq

/-- Modelled from the spec: the observable result of one
`LiveHomeAssistantApi.callService` invocation (the implementation file is not
among the excerpted sources; only its unit tests are). `hubContacted` records
whether `connection.sendMessagePromise` was called. -/
structure CallServiceResult where
  result : ServiceOutcome
  hubContacted : Bool
deriving DecidableEq

/-- The domain prefix of an entity id: the characters before the first dot
(`light.kitchen` to `light`). -/
def entityDomain (entityId : String) : String :=
  ⟨entityId.toList.takeWhile (fun c => c ≠ '.')⟩

/-- The rejection message asserted by the unit tests: Entity ID, the entity
id, then a note that it does not match the domain (with the ASCII apostrophe
of the source text spelled via `sq`). -/
def entityMismatchError (entityId domain : String) : String :=
  "Entity ID " ++ entityId ++ " doesn" ++ sq ++ "t match domain " ++ domain

/-- Modelled from the spec: validate that the domain prefix of every entity id
equals the domain of the call; `some msg` reports the first mismatch. -/
def validateEntityDomains (domain : String) : List String → Option String
  | [] => none
  | id :: rest =>
      if entityDomain id = domain then validateEntityDomains domain rest
      else some (entityMismatchError id domain)

/-- Modelled from the spec: `callService`. In test mode it validates every
entity id and returns `null` without contacting the hub; otherwise it forwards
the call to the hub (`hubResponse` abstracts the hub reply). -/
def callService (testMode : Bool) (hubResponse : Option String)
    (opts : CallServiceOptions) : CallServiceResult :=
  if testMode then
    match validateEntityDomains opts.domain opts.target.toList with
    | none => ⟨.ok none, false⟩
    | some msg => ⟨.failed msg, false⟩
  else ⟨.ok hubResponse, true⟩

end HomeAssistant

namespace Evals

/-- Record `GradeResult` from src/server/evals/call-service.ts. -/
structure GradeResult where
  score : Nat
  possible_score : Nat
  grader_info : String
deriving DecidableEq

/-- Record `ScenarioResult` from src/server/evals/call-service.ts. -/
structure ScenarioResult where
  prompt : String
  toolsDescription : String
  messages : List AnthropicMessage
  gradeResults : List GradeResult
  finalScore : Nat
  finalScorePossible : Nat

/-- Function `gradeViaSearchForContent` (src/server/evals/call-service.ts, lines
797–824). `msgsToString` abstracts the external `messagesToString` helper
applied to the one-element array `[messages[messages.length - 1]]` (`none`
models the out-of-range index of an empty list). -/
def gradeViaSearchForContent (msgsToString : Option AnthropicMessage → String)
    (content : List String) (messages : List AnthropicMessage) : GradeResult :=
  let lastMsg := msgsToString messages.getLast?
  { score := content.foldl (fun acc needle =>
      if strIncludes lastMsg needle then acc + 1 else acc) 0
    possible_score := content.length
    grader_info := "Looking for " ++
      String.intercalate ", " (content.map (fun x => "\"" ++ x ++ "\"")) }

/-- Function `runScenario` (src/server/evals/call-service.ts, lines 725–772), with the
stream already drained: `messages` is what `executePromptWithTools ∘ toArray`
produced, and each grader is a function of the message list. -/
def runScenario (prompt : String) (toolsDescription : String)
    (messages : List AnthropicMessage)
    (graders : List (List AnthropicMessage → GradeResult)) : ScenarioResult :=
  let gradeResults := graders.map (fun g => g messages)
  let totals := gradeResults.foldl
    (fun acc x => (acc.1 + x.score, acc.2 + x.possible_score)) ((0 : Nat), (0 : Nat))
  { prompt := prompt
    toolsDescription := toolsDescription
    messages := messages
    gradeResults := gradeResults
    finalScore := totals.1
    finalScorePossible := totals.2 }

end Evals

namespace Config

/-- One entry of `AppConfig.openAIProviders`, as read and written by
loadConfig/saveConfig. -/
structure OpenAIProviderConfig where
  providerName : Option String
  baseURL : Option String
  apiKey : Option String
deriving DecidableEq

/-- Record `AppConfig` as read and written by loadConfig/saveConfig. -/
structure AppConfig where
  automationModel : String
  visionModel : String
  haBaseUrl : Option String := none
  haToken : Option String := none
  timezone : Option String := none
  anthropicApiKey : Option String := none
  ollamaHost : Option String := none
  openAIProviders : Option (List OpenAIProviderConfig) := none
deriving DecidableEq

/-- A value inside the `[openai]` TOML table: the plain `key = "…"` string of
the default provider, or a named provider sub-table. -/
inductive OpenAIEntry where
  | str (key : String)
  | table (base_url : Option String) (key : Option String)
deriving DecidableEq

/-- The TOML document built by `saveConfig` and consumed by `loadConfig`, as a
Lean structure. `toml.stringify` and `toml.parse` are third-party library code
and are assumed to round-trip this structure faithfully. The `[openai]` table
is a key-ordered association list; `[]` models an absent table. -/
structure TomlStructure where
  ha_base_url : Option String := none
  ha_token : Option String := none
  timezone : Option String := none
  automation_model : Option String := none
  vision_model : Option String := none
  anthropic_key : Option String := none
  ollama_host : Option String := none
  openai : List (String × OpenAIEntry) := []
deriving DecidableEq

/-- JS truthiness filter on an optional string config field: `saveConfig`
writes the field only when it is a non-empty string. -/
def truthyVal : Option String → Option String
  | some s => if s != "" then some s else none
  | none => none

/-- JS object property assignment on the ordered `[openai]` table: overwrite in
place when the key exists, append otherwise. -/
def upsert (l : List (String × OpenAIEntry)) (k : String) (v : OpenAIEntry) :
    List (String × OpenAIEntry) :=
  if l.any (fun p => p.1 == k) then
    l.map (fun p => if p.1 == k then (k, v) else p)
  else l ++ [(k, v)]

/-- The body of the `for (const provider of config.openAIProviders)` loop in
`saveConfig`: the default `openai` provider writes the plain `key`; a named
provider writes a sub-table of its truthy fields, skipped when empty; a
provider without a name is skipped. -/
def saveProviderStep (acc : List (String × OpenAIEntry)) (p : OpenAIProviderConfig) :
    List (String × OpenAIEntry) :=
  if p.providerName == some "openai" then
    match p.apiKey with
    | some k => if k != "" then upsert acc "key" (.str k) else acc
    | none => acc
  else
    match p.providerName with
    | some name =>
        if name != "" then
          let tbl := OpenAIEntry.table (truthyVal p.baseURL) (truthyVal p.apiKey)
          if tbl = OpenAIEntry.table none none then acc else upsert acc name tbl
        else acc
    | none => acc

/-- The `[openai]` table produced by `saveConfig` for a provider list. -/
def saveOpenAI (provs : List OpenAIProviderConfig) : List (String × OpenAIEntry) :=
  provs.foldl saveProviderStep []

/-- Function `saveConfig` (src/server/api.ts, lines 359–431), up to TOML serialization. -/
def saveConfig (config : AppConfig) : TomlStructure :=
  { ha_base_url := truthyVal config.haBaseUrl
    ha_token := truthyVal config.haToken
    timezone := truthyVal config.timezone
    automation_model :=
      if config.automationModel != "" then some config.automationModel else none
    vision_model :=
      if config.visionModel != "" then some config.visionModel else none
    anthropic_key := truthyVal config.anthropicApiKey
    ollama_host := truthyVal config.ollamaHost
    openai :=
      match config.openAIProviders with
      | some provs => if provs.length > 0 then saveOpenAI provs else []
      | none => [] }

/-- The per-key branch of the `for (const key in parsedToml.openai)` loop in
`loadConfig`: the plain `key` string yields the default provider; a sub-table
yields a named provider; a plain string under any other key is skipped. -/
def decodeOpenAIEntry : String × OpenAIEntry → Option OpenAIProviderConfig
  | (k, .str s) => if k = "key" then some ⟨some "openai", none, some s⟩ else none
  | (k, .table b key) => some ⟨some k, b, key⟩

/-- Function `loadConfig` (src/server/api.ts, lines 299–356), after TOML parsing. -/
def loadConfig (t : TomlStructure) : AppConfig :=
  let provs := t.openai.foldl (fun acc e => acc ++ (decodeOpenAIEntry e).toList) []
  { automationModel := t.automation_model.getD ""
    visionModel := t.vision_model.getD ""
    haBaseUrl := t.ha_base_url
    haToken := t.ha_token
    timezone := t.timezone
    anthropicApiKey := t.anthropic_key
    ollamaHost := t.ollama_host
    openAIProviders := if provs.length = 0 then none else some provs }

/-- A provider entry the round-trip preserves: either the default `openai`
provider with a non-empty key and no base URL, or a named provider with a
non-empty name and key and a base URL that is absent or non-empty. -/
def goodProvider (p : OpenAIProviderConfig) : Prop :=
  (p.providerName = some "openai" ∧ p.baseURL = none ∧
    p.apiKey ≠ none ∧ p.apiKey ≠ some "") ∨
  (p.providerName ≠ some "openai" ∧ p.providerName ≠ none ∧ p.providerName ≠ some "" ∧
    p.baseURL ≠ some "" ∧ p.apiKey ≠ none ∧ p.apiKey ≠ some "")

instance goodProviderDecidable (p : OpenAIProviderConfig) : Decidable (goodProvider p) := by
  unfold goodProvider
  infer_instance

/-- The `[openai]` table key a provider is stored under: the default provider
lives under `key`, a named one under its name. -/
def tomlKey (p : OpenAIProviderConfig) : String :=
  if p.providerName = some "openai" then "key" else p.providerName.getD ""

/-- The table entry `saveConfig` writes for a good provider. -/
def encodeProvider (p : OpenAIProviderConfig) : String × OpenAIEntry :=
  if p.providerName = some "openai" then ("key", .str (p.apiKey.getD ""))
  else (p.providerName.getD "", .table p.baseURL p.apiKey)

/-- C10 counterexample data: two providers with the same name. -/
def cfgDup : AppConfig :=
  { automationModel := "m", visionModel := "v"
    openAIProviders := some [⟨some "g", none, some "a"⟩, ⟨some "g", none, some "b"⟩] }

/-- C10 counterexample data: a present-but-empty provider list. -/
def cfgEmpty : AppConfig :=
  { automationModel := "m", visionModel := "v", openAIProviders := some [] }

/-- C10 counterexample data: a provider literally named `key` next to the
default `openai` provider. -/
def cfgKey : AppConfig :=
  { automationModel := "m", visionModel := "v"
    openAIProviders := some [⟨some "key", none, some "a"⟩, ⟨some "openai", none, some "b"⟩] }

/-- A configuration satisfying the amended round-trip hypotheses. -/
def cfgGood : AppConfig :=
  { automationModel := "anthropic/claude-3-5-sonnet", visionModel := "openai/gpt-4o"
    haBaseUrl := some "https://ha.example", haToken := none
    timezone := some "America/Los_Angeles", anthropicApiKey := some "sk-abc"
    ollamaHost := none
    openAIProviders := some
      [⟨some "openai", none, some "k1"⟩, ⟨some "google", some "https://g.example", some "k2"⟩] }

end Config

/-! ## Theorems -/

theorem strIncludes_intro {hay needle : String}
    (h : needle.toList <:+: hay.toList) : strIncludes hay needle = true := by
  obtain ⟨s, t, hst⟩ := h
  unfold strIncludes
  rw [List.any_eq_true]
  refine ⟨needle.toList ++ t, ?_, ?_⟩
  · refine (List.mem_tails _ _).mpr ⟨s, ?_⟩
    rw [← List.append_assoc, hst]
  · exact List.isPrefixOf_iff_prefix.mpr (List.prefix_append _ _)

namespace Ollama

theorem loopEmitted_succ (provider : Nat → ProviderResult) (registered : String → Bool)
    (outcome : ToolCall → ToolOutcome) (remaining i : Nat) :
    loopEmitted provider registered outcome (remaining + 1) i =
      match provider i with
      | .timeout =>
          timeoutApology :: loopEmitted provider registered outcome remaining (i + 1)
      | .reply content tool_calls =>
          match tool_calls with
          | some (c :: cs) =>
              assistantReply content (some (c :: cs)) ::
                ((c :: cs).map (toolResponse registered outcome) ++
                  loopEmitted provider registered outcome remaining (i + 1))
          | _ => [assistantReply content tool_calls] := rfl

theorem loopRequests_succ (provider : Nat → ProviderResult) (remaining i : Nat) :
    loopRequests provider (remaining + 1) i =
      match provider i with
      | .timeout => 1 + loopRequests provider remaining (i + 1)
      | .reply _ tool_calls =>
          match tool_calls with
          | some (_ :: _) => 1 + loopRequests provider remaining (i + 1)
          | _ => 1 := rfl

theorem loopRequests_le (provider : Nat → ProviderResult) :
    ∀ remaining i, loopRequests provider remaining i ≤ remaining := by
  intro remaining
  induction remaining with
  | zero => intro i; simp [loopRequests]
  | succ n ih =>
    intro i
    rw [loopRequests_succ]
    cases hp : provider i with
    | timeout =>
      show 1 + loopRequests provider n (i + 1) ≤ n + 1
      have := ih (i + 1)
      omega
    | reply content tool_calls =>
      cases tool_calls with
      | none =>
        show 1 ≤ n + 1
        omega
      | some l =>
        cases l with
        | nil =>
          show 1 ≤ n + 1
          omega
        | cons c cs =>
          show 1 + loopRequests provider n (i + 1) ≤ n + 1
          have := ih (i + 1)
          omega

/-- C3: the tool loop issues at most `MAX_ITERATIONS = 10` provider requests,
and as soon as the provider returns an assistant message with no tool calls the
loop emits that message and nothing further. The emitted sequence is a `List`,
hence finite for every input. -/
theorem toolLoop_terminates (provider : Nat → ProviderResult)
    (registered : String → Bool) (outcome : ToolCall → ToolOutcome)
    (remaining i : Nat) (content : String) (tool_calls : Option (List ToolCall))
    (hreply : provider i = .reply content tool_calls)
    (hnocalls : tool_calls.getD [] = []) :
    loopRequests provider MAX_ITERATIONS 0 ≤ MAX_ITERATIONS ∧
    loopEmitted provider registered outcome (remaining + 1) i =
      [assistantReply content tool_calls] := by
  refine ⟨loopRequests_le provider MAX_ITERATIONS 0, ?_⟩
  rw [loopEmitted_succ, hreply]
  cases tool_calls with
  | none => rfl
  | some l =>
    cases l with
    | nil => rfl
    | cons c cs => simp at hnocalls

/-- Witness for C3 at a concrete provider script. -/
theorem toolLoop_terminates_witness :
    loopRequests doneProvider MAX_ITERATIONS 0 ≤ MAX_ITERATIONS ∧
    loopEmitted doneProvider allRegistered okOutcome 1 0 =
      [assistantReply "All done." none] :=
  toolLoop_terminates doneProvider allRegistered okOutcome 0 0 "All done." none rfl rfl

theorem loopEmitted_allTimeout_length (provider : Nat → ProviderResult)
    (registered : String → Bool) (outcome : ToolCall → ToolOutcome)
    (htimeout : ∀ j, provider j = .timeout) :
    ∀ remaining i, (loopEmitted provider registered outcome remaining i).length = remaining := by
  intro remaining
  induction remaining with
  | zero => intro i; rfl
  | succ n ih =>
    intro i
    rw [loopEmitted_succ, htimeout i]
    simp [ih (i + 1)]

/-- C4 (amended): when a provider request times out the loop appends and emits
the synthetic assistant apology and continues with the next iteration; timed-out
requests consume iterations, so a run whose every request times out stops after
exactly `MAX_ITERATIONS` apologies — but two consecutive timeouts do not
terminate the loop. -/
theorem provider_timeout_emits_apology_and_retries (provider : Nat → ProviderResult)
    (registered : String → Bool) (outcome : ToolCall → ToolOutcome)
    (remaining i : Nat) (ht : provider i = .timeout) :
    loopEmitted provider registered outcome (remaining + 1) i =
      timeoutApology :: loopEmitted provider registered outcome remaining (i + 1) ∧
    ((∀ j, provider j = .timeout) →
      (loopEmitted provider registered outcome MAX_ITERATIONS 0).length = MAX_ITERATIONS) := by
  constructor
  · rw [loopEmitted_succ, ht]
  · intro h
    exact loopEmitted_allTimeout_length provider registered outcome h MAX_ITERATIONS 0

/-- Witness for the amended C4 at a provider that always times out. -/
theorem provider_timeout_emits_apology_and_retries_witness :
    (loopEmitted (fun _ => .timeout) allRegistered okOutcome MAX_ITERATIONS 0).length =
      MAX_ITERATIONS :=
  (provider_timeout_emits_apology_and_retries (fun _ => .timeout) allRegistered okOutcome
    0 0 rfl).2 (fun _ => rfl)

/-- C4 counterexample: with a provider whose first two requests time out, the
loop does NOT terminate after the two consecutive timeouts — it makes a third
request and emits its reply after the second apology. -/
theorem two_timeouts_in_a_row_do_not_terminate :
    timeoutTwiceProvider 0 = .timeout ∧ timeoutTwiceProvider 1 = .timeout ∧
    loopRequests timeoutTwiceProvider MAX_ITERATIONS 0 = 3 ∧
    loopEmitted timeoutTwiceProvider allRegistered okOutcome MAX_ITERATIONS 0 =
      [timeoutApology, timeoutApology, assistantReply "Recovered." none] :=
  ⟨rfl, rfl, rfl, rfl⟩

/-- C6: every tool call is wrapped in `withTimeout` with
`TOOL_EXECUTION_TIMEOUT = 60000` ms; when the call times out the loop pushes a
`tool` message reporting the timeout (it does not throw — `loopEmitted` is a
total function) and goes on with the remaining tool calls and iterations. -/
theorem tool_timeout_becomes_result_and_loop_continues (provider : Nat → ProviderResult)
    (registered : String → Bool) (outcome : ToolCall → ToolOutcome)
    (remaining i : Nat) (content : String) (c : ToolCall) (cs : List ToolCall)
    (hreply : provider i = .reply content (some (c :: cs)))
    (hreg : registered c.name = true) (hto : outcome c = .timedOut) :
    TOOL_EXECUTION_TIMEOUT = 60000 ∧
    loopEmitted provider registered outcome (remaining + 1) i =
      assistantReply content (some (c :: cs)) ::
        toolTimeoutMessage c ::
          (cs.map (toolResponse registered outcome) ++
            loopEmitted provider registered outcome remaining (i + 1)) ∧
    (toolTimeoutMessage c).content =
      "Tool " ++ sq ++ c.name ++ sq ++ " execution timed out after " ++
        toString TOOL_EXECUTION_TIMEOUT ++ "ms" := by
  refine ⟨rfl, ?_, rfl⟩
  rw [loopEmitted_succ, hreply]
  simp [toolResponse, hreg, hto]

/-- Witness for C6 at a concrete run with two requested tool calls, the first
of which times out. -/
theorem tool_timeout_becomes_result_and_loop_continues_witness :
    TOOL_EXECUTION_TIMEOUT = 60000 ∧
    loopEmitted twoToolsProvider allRegistered firstTimesOutOutcome 10 0 =
      assistantReply "Calling tools" (some [⟨"get-entities", "a"⟩, ⟨"call-service", "b"⟩]) ::
        toolTimeoutMessage ⟨"get-entities", "a"⟩ ::
          ([(⟨"call-service", "b"⟩ : ToolCall)].map
              (toolResponse allRegistered firstTimesOutOutcome) ++
            loopEmitted twoToolsProvider allRegistered firstTimesOutOutcome 9 1) ∧
    (toolTimeoutMessage ⟨"get-entities", "a"⟩).content =
      "Tool " ++ sq ++ "get-entities" ++ sq ++ " execution timed out after " ++
        toString TOOL_EXECUTION_TIMEOUT ++ "ms" :=
  tool_timeout_becomes_result_and_loop_continues twoToolsProvider allRegistered
    firstTimesOutOutcome 9 0 "Calling tools" ⟨"get-entities", "a"⟩
    [⟨"call-service", "b"⟩] rfl rfl rfl

/-- C7: a tool call whose name is not in `toolClientMap` produces a
tool-not-found `tool` message and the loop goes on with the remaining calls;
`loopEmitted` is a total function, so no exception escapes. -/
theorem unknown_tool_becomes_result_and_loop_continues (provider : Nat → ProviderResult)
    (registered : String → Bool) (outcome : ToolCall → ToolOutcome)
    (remaining i : Nat) (content : String) (c : ToolCall) (cs : List ToolCall)
    (hreply : provider i = .reply content (some (c :: cs)))
    (hreg : registered c.name = false) :
    loopEmitted provider registered outcome (remaining + 1) i =
      assistantReply content (some (c :: cs)) ::
        toolNotFoundMessage c ::
          (cs.map (toolResponse registered outcome) ++
            loopEmitted provider registered outcome remaining (i + 1)) ∧
    (toolNotFoundMessage c).content =
      "System error: Tool " ++ sq ++ c.name ++ sq ++ " not found." := by
  refine ⟨?_, rfl⟩
  rw [loopEmitted_succ, hreply]
  simp [toolResponse, hreg]

theorem toolResponse_role (registered : String → Bool) (outcome : ToolCall → ToolOutcome)
    (call : ToolCall) : (toolResponse registered outcome call).role = "tool" := by
  unfold toolResponse
  by_cases h : registered call.name
  · simp only [h, if_true]
    cases houtcome : outcome call <;> rfl
  · simp only [h, if_false]
    rfl

theorem loopEmitted_roles (provider : Nat → ProviderResult) (registered : String → Bool)
    (outcome : ToolCall → ToolOutcome) :
    ∀ remaining i, ∀ m ∈ loopEmitted provider registered outcome remaining i,
      m.role = "assistant" ∨ m.role = "tool" := by
  intro remaining
  induction remaining with
  | zero =>
    intro i m hm
    simp [loopEmitted] at hm
  | succ n ih =>
    intro i m hm
    rw [loopEmitted_succ] at hm
    cases hp : provider i with
    | timeout =>
      rw [hp] at hm
      rcases List.mem_cons.mp hm with h | h
      · left; rw [h]; rfl
      · exact ih (i + 1) m h
    | reply content tool_calls =>
      rw [hp] at hm
      cases tool_calls with
      | none =>
        rcases List.mem_singleton.mp hm with h
        left; rw [h]; rfl
      | some l =>
        cases l with
        | nil =>
          rcases List.mem_singleton.mp hm with h
          left; rw [h]; rfl
        | cons c cs =>
          rcases List.mem_cons.mp hm with h | h
          · left; rw [h]; rfl
          · rcases List.mem_append.mp h with h2 | h2
            · rcases List.mem_map.mp h2 with ⟨call, _, hcall⟩
              right; rw [← hcall]; exact toolResponse_role registered outcome call
            · exact ih (i + 1) m h2

theorem loopEmitted_head_role (provider : Nat → ProviderResult) (registered : String → Bool)
    (outcome : ToolCall → ToolOutcome) (remaining i : Nat) (m : Message)
    (hm : (loopEmitted provider registered outcome remaining i).head? = some m) :
    m.role = "assistant" := by
  cases remaining with
  | zero => simp [loopEmitted] at hm
  | succ n =>
    rw [loopEmitted_succ] at hm
    cases hp : provider i with
    | timeout =>
      rw [hp] at hm
      simp only [List.head?_cons, Option.some.injEq] at hm
      rw [← hm]
      rfl
    | reply content tool_calls =>
      rw [hp] at hm
      cases tool_calls with
      | none =>
        simp only [List.head?_cons, Option.some.injEq] at hm
        rw [← hm]; rfl
      | some l =>
        cases l with
        | nil =>
          simp only [List.head?_cons, Option.some.injEq] at hm
          rw [← hm]; rfl
        | cons c cs =>
          simp only [List.head?_cons, Option.some.injEq] at hm
          rw [← hm]; rfl

theorem convert_assistant_role (t : Nat) (m : Message) (h : m.role = "assistant") :
    (convertOllamaMessageToAnthropic t m).role = "assistant" := by
  obtain ⟨role, content, tcs⟩ := m
  simp only at h
  subst h
  unfold convertOllamaMessageToAnthropic
  cases tcs <;> rfl

/-- C9: when the prompt is empty or whitespace `_executePromptWithTools`
yields only the messages of the loop — the first yielded message (when one exists)
is an assistant message, both in Ollama format and after
`convertOllamaMessageToAnthropic`, and no yielded message is a user message in
Ollama format. For a non-blank prompt the first yielded message is the user
message carrying the prompt verbatim. -/
theorem blank_prompt_skips_user_message (provider : Nat → ProviderResult)
    (registered : String → Bool) (outcome : ToolCall → ToolOutcome) (prompt : String) :
    (promptIsBlank prompt = true →
      executePromptWithTools provider registered outcome prompt =
        loopEmitted provider registered outcome MAX_ITERATIONS 0 ∧
      (∀ m ∈ executePromptWithTools provider registered outcome prompt, m.role ≠ "user") ∧
      (∀ t m, (executePromptWithTools provider registered outcome prompt).head? = some m →
        (convertOllamaMessageToAnthropic t m).role = "assistant")) ∧
    (promptIsBlank prompt = false →
      (executePromptWithTools provider registered outcome prompt).head? =
        some (userMessage prompt)) := by
  constructor
  · intro h
    have hemit : executePromptWithTools provider registered outcome prompt =
        loopEmitted provider registered outcome MAX_ITERATIONS 0 := by
      unfold executePromptWithTools
      rw [h]
      rfl
    refine ⟨hemit, ?_, ?_⟩
    · intro m hm
      rw [hemit] at hm
      rcases loopEmitted_roles provider registered outcome MAX_ITERATIONS 0 m hm with
        h1 | h1 <;> simp [h1]
    · intro t m hm
      rw [hemit] at hm
      exact convert_assistant_role t m
        (loopEmitted_head_role provider registered outcome MAX_ITERATIONS 0 m hm)
  · intro h
    unfold executePromptWithTools
    rw [h]
    rfl

/-- Witness for C9: a blank and a non-blank prompt on a concrete run. -/
theorem blank_prompt_skips_user_message_witness :
    ((executePromptWithTools doneProvider allRegistered okOutcome "hi").head? =
      some (userMessage "hi")) ∧
    (∀ m ∈ executePromptWithTools doneProvider allRegistered okOutcome "  ",
      m.role ≠ "user") :=
  ⟨(blank_prompt_skips_user_message doneProvider allRegistered okOutcome "hi").2
      (by decide),
    ((blank_prompt_skips_user_message doneProvider allRegistered okOutcome "  ").1
      (by decide)).2.1⟩

/-- C2 (bug): in the Ollama driver the fabricated `tool_use` id embeds the tool
name while the fabricated `tool_result` id does not, so the two never match —
here even when `Date.now()` returns the same value (1111) for both conversions.
The concrete run shows the loop emitting the `tool` message right after the
assistant message that requested the call, so the converted transcript has the
`tool_result` positioned correctly but with a `tool_use_id` matching no
`tool_use` id. -/
theorem fabricated_tool_ids_never_pair :
    executePromptWithTools pairingProvider allRegistered okOutcome "go" =
      [userMessage "go", assistantReply "" (some [⟨"test", "a"⟩]),
        ⟨"tool", "42", none⟩, assistantReply "Done" none] ∧
    convertOllamaMessageToAnthropic 1111 (assistantReply "" (some [⟨"test", "a"⟩])) =
      ⟨"assistant", .blocks [.tool_use "toolu_test_1111" "test" "a"]⟩ ∧
    convertOllamaMessageToAnthropic 1111 ⟨"tool", "42", none⟩ =
      ⟨"user", .blocks [.tool_result "toolu_1111" "42"]⟩ ∧
    ("toolu_test_1111" : String) ≠ "toolu_1111" := by
  refine ⟨rfl, by decide, by decide, by decide⟩

/-- Witness for C7: a run whose first requested tool is unregistered. -/
theorem unknown_tool_becomes_result_and_loop_continues_witness :
    loopEmitted twoToolsProvider (fun _ => false) okOutcome 10 0 =
      assistantReply "Calling tools" (some [⟨"get-entities", "a"⟩, ⟨"call-service", "b"⟩]) ::
        toolNotFoundMessage ⟨"get-entities", "a"⟩ ::
          ([(⟨"call-service", "b"⟩ : ToolCall)].map
              (toolResponse (fun _ => false) okOutcome) ++
            loopEmitted twoToolsProvider (fun _ => false) okOutcome 9 1) ∧
    (toolNotFoundMessage ⟨"get-entities", "a"⟩).content =
      "System error: Tool " ++ sq ++ "get-entities" ++ sq ++ " not found." :=
  unknown_tool_becomes_result_and_loop_continues twoToolsProvider (fun _ => false)
    okOutcome 9 0 "Calling tools" ⟨"get-entities", "a"⟩ [⟨"call-service", "b"⟩] rfl rfl

end Ollama

namespace Scheduler

/-- C1: processing an automation list goes automation by automation; an
automation with at least one alive signal row (`isDead != true`) is skipped
entirely — no scheduling-loop invocation, no new `automationLogs` row — while
an automation with no alive signal gets exactly one scheduling-loop invocation
and exactly one appended `automationLogs` row with type `determine-signal`
and its own hash. -/
theorem scheduling_idempotent_per_hash
    (toolEffect : String → List SignalRow → List SignalRow) (msgsFor : String → String)
    (db : DbState) (a : Automation) (rest : List Automation) :
    rescheduleAutomations toolEffect msgsFor db (a :: rest) =
      rescheduleAutomations toolEffect msgsFor (rescheduleStep toolEffect msgsFor db a) rest ∧
    ((∃ s ∈ db.signals, s.automationHash = a.hash ∧ s.isDead = false) →
      rescheduleStep toolEffect msgsFor db a = db) ∧
    (¬ (∃ s ∈ db.signals, s.automationHash = a.hash ∧ s.isDead = false) →
      (rescheduleStep toolEffect msgsFor db a).automationLogs =
        db.automationLogs ++ [⟨"determine-signal", some a.hash, msgsFor a.hash⟩] ∧
      (rescheduleStep toolEffect msgsFor db a).llmInvocations =
        db.llmInvocations ++ [a.hash]) := by
  refine ⟨rfl, ?_, ?_⟩
  · rintro ⟨s, hmem, hhash, hdead⟩
    unfold rescheduleStep
    cases hfind : firstAliveSignal db.signals a.hash with
    | some _ => rfl
    | none =>
      exfalso
      have hnone := List.find?_eq_none.mp hfind s hmem
      apply hnone
      simp [hhash, hdead]
  · intro hno
    unfold rescheduleStep
    cases hfind : firstAliveSignal db.signals a.hash with
    | some s =>
      exfalso
      apply hno
      have hmem := List.mem_of_find?_eq_some hfind
      have hp := List.find?_some hfind
      simp only [Bool.and_eq_true, beq_iff_eq, Bool.not_eq_true'] at hp
      exact ⟨s, hmem, hp.1, hp.2⟩
    | none => exact ⟨rfl, rfl⟩

/-- Witness for C1: a database holding one alive signal for hash `h1`; the
automation with hash `h1` is skipped, the one with hash `h2` is scheduled. -/
theorem scheduling_idempotent_per_hash_witness :
    rescheduleStep (fun _ sigs => sigs) (fun _ => "[]")
        ⟨[⟨"h1", false⟩], [], []⟩ ⟨"h1", "every morning", "a.md"⟩ =
      ⟨[⟨"h1", false⟩], [], []⟩ ∧
    (rescheduleStep (fun _ sigs => sigs) (fun _ => "[]")
        ⟨[⟨"h1", false⟩], [], []⟩ ⟨"h2", "when the door opens", "b.md"⟩).automationLogs =
      [⟨"determine-signal", some "h2", "[]"⟩] :=
  ⟨(scheduling_idempotent_per_hash (fun _ sigs => sigs) (fun _ => "[]")
      ⟨[⟨"h1", false⟩], [], []⟩ ⟨"h1", "every morning", "a.md"⟩ []).2.1 (by decide),
    ((scheduling_idempotent_per_hash (fun _ sigs => sigs) (fun _ => "[]")
      ⟨[⟨"h1", false⟩], [], []⟩ ⟨"h2", "when the door opens", "b.md"⟩ []).2.2
        (by decide)).1⟩

end Scheduler

namespace HomeAssistant

theorem validate_none_of_all (domain : String) :
    ∀ l : List String, (∀ id ∈ l, entityDomain id = domain) →
      validateEntityDomains domain l = none := by
  intro l
  induction l with
  | nil => intro _; rfl
  | cons id rest ih =>
    intro hall
    unfold validateEntityDomains
    rw [if_pos (hall id (by simp))]
    exact ih (fun x hx => hall x (by simp [hx]))

theorem validate_some_of_exists (domain : String) :
    ∀ l : List String, (∃ id ∈ l, entityDomain id ≠ domain) →
      ∃ bad ∈ l, entityDomain bad ≠ domain ∧
        validateEntityDomains domain l = some (entityMismatchError bad domain) := by
  intro l
  induction l with
  | nil => rintro ⟨x, hx, _⟩; simp at hx
  | cons id rest ih =>
    rintro ⟨x, hx, hne⟩
    by_cases h : entityDomain id = domain
    · have hxrest : x ∈ rest := by
        rcases List.mem_cons.mp hx with h1 | h1
        · exact absurd (h1 ▸ h) hne
        · exact h1
      rcases ih ⟨x, hxrest, hne⟩ with ⟨bad, hmem, hbad, hval⟩
      refine ⟨bad, by simp [hmem], hbad, ?_⟩
      unfold validateEntityDomains
      rw [if_pos h]
      exact hval
    · refine ⟨id, by simp, h, ?_⟩
      unfold validateEntityDomains
      rw [if_neg h]

theorem strIncludes_mismatch_entity (eid domain : String) :
    strIncludes (entityMismatchError eid domain) eid = true := by
  apply strIncludes_intro
  refine ⟨"Entity ID ".toList,
    (" doesn" ++ sq ++ "t match domain " ++ domain).toList, ?_⟩
  simp [entityMismatchError, String.toList]

theorem strIncludes_mismatch_domain (eid domain : String) :
    strIncludes (entityMismatchError eid domain) domain = true := by
  apply strIncludes_intro
  refine ⟨("Entity ID " ++ eid ++ " doesn" ++ sq ++ "t match domain ").toList, [], ?_⟩
  simp [entityMismatchError, String.toList]

/-- C5 (spec-modelled): in test mode `callService` never contacts the hub; when
every entity id carries the domain of the call as its prefix it resolves with `null`, and
when some entity id does not, it rejects with a message containing both that
entity id and the domain — still without contacting the hub. -/
theorem callService_testMode_safety (hubResponse : Option String)
    (opts : CallServiceOptions) :
    (callService true hubResponse opts).hubContacted = false ∧
    ((∀ id ∈ opts.target.toList, entityDomain id = opts.domain) →
      (callService true hubResponse opts).result = .ok none) ∧
    ((∃ id ∈ opts.target.toList, entityDomain id ≠ opts.domain) →
      ∃ bad ∈ opts.target.toList, entityDomain bad ≠ opts.domain ∧
        (callService true hubResponse opts).result =
          .failed (entityMismatchError bad opts.domain) ∧
        strIncludes (entityMismatchError bad opts.domain) bad = true ∧
        strIncludes (entityMismatchError bad opts.domain) opts.domain = true) := by
  refine ⟨?_, ?_, ?_⟩
  · unfold callService
    cases h : validateEntityDomains opts.domain opts.target.toList <;> simp [h]
  · intro hall
    unfold callService
    rw [validate_none_of_all opts.domain opts.target.toList hall]
    rfl
  · intro hex
    rcases validate_some_of_exists opts.domain opts.target.toList hex with
      ⟨bad, hmem, hbad, hval⟩
    refine ⟨bad, hmem, hbad, ?_, strIncludes_mismatch_entity bad opts.domain,
      strIncludes_mismatch_domain bad opts.domain⟩
    unfold callService
    rw [hval]
    rfl

/-- Witness for C5 at the inputs of the unit tests: a valid single-entity call
and a call with one mismatching entity id in an array target. -/
theorem callService_testMode_safety_witness :
    (callService true none ⟨"light", "turn_on", .one "light.kitchen"⟩).hubContacted =
      false ∧
    (callService true none ⟨"light", "turn_on", .one "light.kitchen"⟩).result =
      .ok none ∧
    (∃ bad ∈ (EntityTarget.many ["light.kitchen", "switch.porch"]).toList,
      entityDomain bad ≠ "light" ∧
      (callService true none
        ⟨"light", "turn_on", .many ["light.kitchen", "switch.porch"]⟩).result =
          .failed (entityMismatchError bad "light") ∧
      strIncludes (entityMismatchError bad "light") bad = true ∧
      strIncludes (entityMismatchError bad "light") "light" = true) :=
  ⟨(callService_testMode_safety none ⟨"light", "turn_on", .one "light.kitchen"⟩).1,
    (callService_testMode_safety none ⟨"light", "turn_on", .one "light.kitchen"⟩).2.1
      (by decide),
    (callService_testMode_safety none
      ⟨"light", "turn_on", .many ["light.kitchen", "switch.porch"]⟩).2.2 (by decide)⟩

end HomeAssistant

namespace Evals

theorem foldl_count (p : String → Bool) :
    ∀ (l : List String) (n : Nat),
      l.foldl (fun acc needle => if p needle then acc + 1 else acc) n =
        n + (l.filter p).length := by
  intro l
  induction l with
  | nil => intro n; simp
  | cons x xs ih =>
    intro n
    rw [List.foldl_cons, List.filter_cons]
    by_cases h : p x
    · rw [if_pos h, if_pos h, ih (n + 1)]
      simp only [List.length_cons]
      omega
    · rw [if_neg h, if_neg h, ih n]

theorem foldl_pair_sum :
    ∀ (l : List GradeResult) (a b : Nat),
      l.foldl (fun acc x => (acc.1 + x.score, acc.2 + x.possible_score)) (a, b) =
        (a + (l.map GradeResult.score).sum, b + (l.map GradeResult.possible_score).sum) := by
  intro l
  induction l with
  | nil => intro a b; simp
  | cons x xs ih =>
    intro a b
    rw [List.foldl_cons, ih]
    simp [Nat.add_assoc]

/-- C8: the content-contains grader scores exactly the number of needles found
in the stringified final message out of a possible score equal to the number of
needles (so the score never exceeds the possible score), and `runScenario` sums
the per-grader scores and possible scores into `finalScore` and
`finalScorePossible`. -/
theorem grader_and_scenario_scores (msgsToString : Option AnthropicMessage → String)
    (content : List String) (messages : List AnthropicMessage)
    (prompt toolsDescription : String)
    (graders : List (List AnthropicMessage → GradeResult)) :
    (gradeViaSearchForContent msgsToString content messages).score =
      (content.filter (fun needle =>
        strIncludes (msgsToString messages.getLast?) needle)).length ∧
    (gradeViaSearchForContent msgsToString content messages).possible_score =
      content.length ∧
    (gradeViaSearchForContent msgsToString content messages).score ≤
      (gradeViaSearchForContent msgsToString content messages).possible_score ∧
    (runScenario prompt toolsDescription messages graders).gradeResults =
      graders.map (fun g => g messages) ∧
    (runScenario prompt toolsDescription messages graders).finalScore =
      ((runScenario prompt toolsDescription messages graders).gradeResults.map
        GradeResult.score).sum ∧
    (runScenario prompt toolsDescription messages graders).finalScorePossible =
      ((runScenario prompt toolsDescription messages graders).gradeResults.map
        GradeResult.possible_score).sum := by
  have hscore : (gradeViaSearchForContent msgsToString content messages).score =
      (content.filter (fun needle =>
        strIncludes (msgsToString messages.getLast?) needle)).length := by
    unfold gradeViaSearchForContent
    dsimp only
    rw [foldl_count]
    simp
  refine ⟨hscore, rfl, ?_, rfl, ?_, ?_⟩
  · rw [hscore]
    exact List.length_filter_le _ content
  · unfold runScenario
    dsimp only
    rw [foldl_pair_sum]
    simp
  · unfold runScenario
    dsimp only
    rw [foldl_pair_sum]
    simp

end Evals

namespace Config

theorem truthyVal_eq {o : Option String} (h : o ≠ some "") : truthyVal o = o := by
  cases o with
  | none => rfl
  | some s =>
    have hs : s ≠ "" := fun he => h (by rw [he])
    simp [truthyVal, hs]

theorem upsert_fresh (l : List (String × OpenAIEntry)) (k : String) (v : OpenAIEntry)
    (h : ∀ p ∈ l, p.1 ≠ k) : upsert l k v = l ++ [(k, v)] := by
  have hany : l.any (fun p => p.1 == k) = false := by
    rw [List.any_eq_false]
    intro p hp
    simpa using h p hp
  unfold upsert
  rw [hany]
  simp

theorem encodeProvider_fst (p : OpenAIProviderConfig) :
    (encodeProvider p).1 = tomlKey p := by
  unfold encodeProvider tomlKey
  by_cases h : p.providerName = some "openai" <;> simp [h]

theorem saveProviderStep_good (acc : List (String × OpenAIEntry))
    (p : OpenAIProviderConfig) (hp : goodProvider p)
    (hfresh : ∀ q ∈ acc, q.1 ≠ tomlKey p) :
    saveProviderStep acc p = acc ++ [encodeProvider p] := by
  obtain ⟨pn, pb, pk⟩ := p
  rcases hp with ⟨hname, hurl, hk1, hk2⟩ | ⟨hn1, hn2, hn3, hurl, hk1, hk2⟩
  · simp only at hname hurl hk1 hk2
    subst hname
    subst hurl
    cases pk with
    | none => exact absurd rfl hk1
    | some k =>
      have hkne : k ≠ "" := by
        intro he
        rw [he] at hk2
        exact hk2 rfl
      have hkey : tomlKey ⟨some "openai", none, some k⟩ = "key" := by
        simp [tomlKey]
      have hstep : saveProviderStep acc ⟨some "openai", none, some k⟩ =
          upsert acc "key" (.str k) := by
        simp [saveProviderStep, hkne]
      rw [hstep, upsert_fresh acc "key" _ (fun q hq => hkey ▸ hfresh q hq)]
      simp [encodeProvider]
  · simp only at hn1 hn2 hn3 hurl hk1 hk2
    cases pn with
    | none => exact absurd rfl hn2
    | some name =>
      cases pk with
      | none => exact absurd rfl hk1
      | some k =>
        have hname_ne : name ≠ "" := by
          intro he
          rw [he] at hn3
          exact hn3 rfl
        have hname_no : name ≠ "openai" := by
          intro he
          rw [he] at hn1
          exact hn1 rfl
        have hk_ne : k ≠ "" := by
          intro he
          rw [he] at hk2
          exact hk2 rfl
        have hkey : tomlKey ⟨some name, pb, some k⟩ = name := by
          simp [tomlKey, hname_no]
        have hstep : saveProviderStep acc ⟨some name, pb, some k⟩ =
            upsert acc name (.table pb (some k)) := by
          cases pb with
          | none => simp [saveProviderStep, hname_no, hname_ne, truthyVal, hk_ne]
          | some b =>
            have hbne : b ≠ "" := by
              intro he
              rw [he] at hurl
              exact hurl rfl
            simp [saveProviderStep, hname_no, hname_ne, truthyVal, hk_ne, hbne]
        rw [hstep, upsert_fresh acc name _ (fun q hq => hkey ▸ hfresh q hq)]
        simp [encodeProvider, hname_no]

theorem saveOpenAI_fold :
    ∀ (provs : List OpenAIProviderConfig) (acc : List (String × OpenAIEntry)),
      (∀ p ∈ provs, goodProvider p) → (provs.map tomlKey).Nodup →
      (∀ p ∈ provs, ∀ q ∈ acc, q.1 ≠ tomlKey p) →
      provs.foldl saveProviderStep acc = acc ++ provs.map encodeProvider := by
  intro provs
  induction provs with
  | nil => intro acc _ _ _; simp
  | cons p ps ih =>
    intro acc hgood hnodup hfresh
    rw [List.foldl_cons,
      saveProviderStep_good acc p (hgood p (by simp)) (hfresh p (by simp))]
    rw [List.map_cons] at hnodup
    have hnotin := (List.nodup_cons.mp hnodup).1
    have htail := (List.nodup_cons.mp hnodup).2
    rw [ih (acc ++ [encodeProvider p]) (fun q hq => hgood q (by simp [hq])) htail ?_]
    · simp
    · intro r hr q hq
      rcases List.mem_append.mp hq with hq1 | hq1
      · exact hfresh r (by simp [hr]) q hq1
      · rcases List.mem_singleton.mp hq1 with hq2
        rw [hq2, encodeProvider_fst]
        intro he
        exact hnotin (he ▸ List.mem_map_of_mem tomlKey hr)

theorem decode_encode (p : OpenAIProviderConfig) (hp : goodProvider p) :
    decodeOpenAIEntry (encodeProvider p) = some p := by
  obtain ⟨pn, pb, pk⟩ := p
  rcases hp with ⟨hname, hurl, hk1, hk2⟩ | ⟨hn1, hn2, hn3, hurl, hk1, hk2⟩
  · simp only at hname hurl hk1 hk2
    subst hname
    subst hurl
    cases pk with
    | none => exact absurd rfl hk1
    | some k =>
      unfold encodeProvider
      rw [if_pos rfl]
      rfl
  · simp only at hn1 hn2 hn3 hurl hk1 hk2
    cases pn with
    | none => exact absurd rfl hn2
    | some name =>
      unfold encodeProvider
      rw [if_neg (by simpa using hn1)]
      rfl

theorem load_fold :
    ∀ (l : List (String × OpenAIEntry)) (acc : List OpenAIProviderConfig),
      l.foldl (fun acc e => acc ++ (decodeOpenAIEntry e).toList) acc =
        acc ++ l.filterMap decodeOpenAIEntry := by
  intro l
  induction l with
  | nil => intro acc; simp
  | cons e es ih =>
    intro acc
    rw [List.foldl_cons, ih, List.filterMap_cons]
    cases decodeOpenAIEntry e <;> simp

theorem filterMap_decode_encode (provs : List OpenAIProviderConfig)
    (hgood : ∀ p ∈ provs, goodProvider p) :
    (provs.map encodeProvider).filterMap decodeOpenAIEntry = provs := by
  induction provs with
  | nil => rfl
  | cons p ps ih =>
    rw [List.map_cons, List.filterMap_cons, decode_encode p (hgood p (by simp))]
    rw [ih (fun q hq => hgood q (by simp [hq]))]

/-- C10 (amended): writing a config with `saveConfig` and reading it back with
`loadConfig` restores it exactly, provided every defined field is non-empty,
the default `openai` provider (if present) carries no `baseURL` and every
provider carries a key, the provider list (when present) is non-empty, and the
TOML keys the providers are stored under (`key` for the default provider, the
provider name otherwise) are pairwise distinct. -/
theorem loadConfig_saveConfig_roundtrip (cfg : AppConfig)
    (h1 : cfg.automationModel ≠ "") (h2 : cfg.visionModel ≠ "")
    (h3 : cfg.haBaseUrl ≠ some "") (h4 : cfg.haToken ≠ some "")
    (h5 : cfg.timezone ≠ some "") (h6 : cfg.anthropicApiKey ≠ some "")
    (h7 : cfg.ollamaHost ≠ some "")
    (h8 : cfg.openAIProviders.elim True (fun provs =>
      provs ≠ [] ∧ (∀ p ∈ provs, goodProvider p) ∧ (provs.map tomlKey).Nodup)) :
    loadConfig (saveConfig cfg) = cfg := by
  obtain ⟨am, vm, hb, htk, tz, ak, oh, ops⟩ := cfg
  simp only at h1 h2 h3 h4 h5 h6 h7 h8
  cases ops with
  | none =>
    unfold saveConfig loadConfig
    simp [truthyVal_eq h3, truthyVal_eq h4, truthyVal_eq h5, truthyVal_eq h6,
      truthyVal_eq h7, h1, h2]
  | some provs =>
    simp only [Option.elim] at h8
    obtain ⟨hne, hgood, hnodup⟩ := h8
    have hlen : 0 < provs.length := by
      cases provs with
      | nil => exact absurd rfl hne
      | cons q qs => simp
    have hsave : saveOpenAI provs = provs.map encodeProvider := by
      unfold saveOpenAI
      have := saveOpenAI_fold provs [] hgood hnodup (by intro p _ q hq; simp at hq)
      simpa using this
    have hload : (provs.map encodeProvider).filterMap decodeOpenAIEntry = provs :=
      filterMap_decode_encode provs hgood
    unfold saveConfig loadConfig
    simp only [hlen, if_pos, gt_iff_lt, hsave]
    rw [load_fold]
    simp only [List.nil_append, hload]
    simp [truthyVal_eq h3, truthyVal_eq h4, truthyVal_eq h5, truthyVal_eq h6,
      truthyVal_eq h7, h1, h2, hne, List.length_eq_zero]

/-- C10 counterexample: three configurations that satisfy the stated
hypotheses (all defined fields non-empty; the default `openai` provider, when
present, carries no baseURL) yet do not survive the round-trip: duplicate
provider names collapse to one entry, a present-but-empty provider list loads
back as undefined, and a provider named `key` collides with the default
provider entry under the `key` field. -/
theorem config_roundtrip_fails_as_stated :
    loadConfig (saveConfig cfgDup) ≠ cfgDup ∧
    loadConfig (saveConfig cfgEmpty) ≠ cfgEmpty ∧
    loadConfig (saveConfig cfgKey) ≠ cfgKey :=
  ⟨by decide, by decide, by decide⟩

/-- Witness for the amended C10 at a concrete two-provider configuration. -/
theorem loadConfig_saveConfig_roundtrip_witness :
    loadConfig (saveConfig cfgGood) = cfgGood :=
  loadConfig_saveConfig_roundtrip cfgGood (by decide) (by decide) (by decide)
    (by decide) (by decide) (by decide) (by decide)
    (by simp only [cfgGood, Option.elim]; decide)

end Config

end Beatrix
